import Mathlib

/-!
Shallow embedding of the otclient draw-batching engine (framework/graphics
drawpool header) and a verification of its specified properties.

The embedding follows `drawpool.h`: the `DrawPool` class with its nested
`PoolState`, `DrawMethod`, `DrawObject` types, and the `DrawBuffer` cache
slot.  Machine integers (`uint8_t`, `int`, `size_t`) are modelled as
`Nat`/`Int`; `float` fields that are only ever assigned and compared are
modelled as `Rat`; `std::optional` as `Option`; raw/shared pointers that are
only compared for identity as `Option Nat`; `std::function` closures as an
opaque identity tag `Option Nat` (they are never called by the modelled
operations, only stored).
-/

/-- 2D integer point (`TPoint<int>`); default-constructed as the origin. -/
structure Point where
  x : Int
  y : Int
deriving DecidableEq, Repr

instance : Inhabited Point := ⟨⟨0, 0⟩⟩

/-- Integer rectangle (`TRect<int>`); default-constructed invalid as in the
source (`x1 = 0, y1 = 0, x2 = -1, y2 = -1`). -/
structure Rect where
  x1 : Int
  y1 : Int
  x2 : Int
  y2 : Int
deriving DecidableEq, Repr

instance : Inhabited Rect := ⟨⟨0, 0, -1, -1⟩⟩

/-- RGBA color; `Color.white` is the default used by `PoolState`. -/
structure Color where
  r : Nat
  g : Nat
  b : Nat
  a : Nat
deriving DecidableEq, Repr

def Color.white : Color := ⟨255, 255, 255, 255⟩

instance : Inhabited Color := ⟨Color.white⟩

/-- 3x3 transform matrix; only compared for structural equality by the
embedded operations, so its entries are modelled as rationals. -/
abbrev Matrix3 := List Rat

inductive CompositionMode where
  | NORMAL
  | MULTIPLY
  | ADD
  | REPLACE
  | DESTINATION_BLENDING
  | LIGHT
deriving DecidableEq, Repr

inductive BlendEquation where
  | ADD
  | MAX
deriving DecidableEq, Repr

inductive DrawMode where
  | TRIANGLES
  | TRIANGLE_STRIP
deriving DecidableEq, Repr

/-- `DrawPool::DrawOrder` from drawpool.h. -/
inductive DrawOrder where
  | NONE
  | FIRST
  | SECOND
  | THIRD
  | FOURTH
  | FIFTH
  | LAST
deriving DecidableEq, Repr

/-- `DrawPool::DrawMethodType` from drawpool.h. -/
inductive DrawMethodType where
  | RECT
  | TRIANGLE
  | REPEATED_RECT
  | BOUNDING_RECT
  | UPSIDEDOWN_RECT
deriving DecidableEq, Repr

/-- `DrawPool::DrawMethod` from drawpool.h. -/
structure DrawMethod where
  type : DrawMethodType
  rects : Option (Rect × Rect)
  points : Option (Point × Point × Point)
  dest : Option Point
  intValue : Nat
deriving DecidableEq, Repr

/-- `DrawPool::PoolState` from drawpool.h.  `texture` and `shaderProgram`
are pointers compared only for identity, modelled as `Option Nat`; the
`action` closure is modelled as an opaque identity tag. -/
structure PoolState where
  transformMatrix : Matrix3
  color : Color
  opacity : Rat
  compositionMode : CompositionMode
  blendEquation : BlendEquation
  clipRect : Rect
  texture : Option Nat
  shaderProgram : Option Nat
  action : Option Nat
deriving DecidableEq, Repr

/-- Default `PoolState` per the member initializers in drawpool.h. -/
def PoolState.default : PoolState :=
  { transformMatrix := []
    color := Color.white
    opacity := 1
    compositionMode := CompositionMode.NORMAL
    blendEquation := BlendEquation.ADD
    clipRect := Inhabited.default
    texture := none
    shaderProgram := none
    action := none }

instance : Inhabited PoolState := ⟨PoolState.default⟩

/-- `PoolState::operator==` from drawpool.h: structural comparison of all
fields except the `action` closure. -/
def PoolState.eqState (s1 s2 : PoolState) : Bool :=
  decide (s1.transformMatrix = s2.transformMatrix) &&
  decide (s1.color = s2.color) &&
  decide (s1.opacity = s2.opacity) &&
  decide (s1.compositionMode = s2.compositionMode) &&
  decide (s1.blendEquation = s2.blendEquation) &&
  decide (s1.clipRect = s2.clipRect) &&
  decide (s1.texture = s2.texture) &&
  decide (s1.shaderProgram = s2.shaderProgram)

/-- `DrawBuffer` from drawpool.h.  `m_coords` only accumulates geometry and
is never inspected by the embedded operations; it is modelled as the list of
appended methods. -/
structure DrawBuffer where
  m_i : Int
  m_agroup : Bool
  m_order : DrawOrder
  m_ref : Point
  m_hashs : List (PoolState × DrawMethod)
  m_coords : List DrawMethod
deriving DecidableEq, Repr

/-- The two-argument `DrawBuffer` constructor (`agroup` defaults to true),
with the member initializers from drawpool.h. -/
def DrawBuffer.mkBuffer (order : DrawOrder) (agroup : Bool) : DrawBuffer :=
  { m_i := -1
    m_agroup := agroup
    m_order := order
    m_ref := default
    m_hashs := []
    m_coords := [] }

/-- `DrawBuffer::isValid` from drawpool.h: `m_i > -1`. -/
def DrawBuffer.isValid (b : DrawBuffer) : Bool := decide (b.m_i > -1)

/-- `DrawBuffer::isTemporary` from drawpool.h: `m_i == -2`. -/
def DrawBuffer.isTemporary (b : DrawBuffer) : Bool := decide (b.m_i = -2)

/-- `DrawBuffer::invalidate` from drawpool.h: `m_i = -1`. -/
def DrawBuffer.invalidate (b : DrawBuffer) : DrawBuffer := { b with m_i := -1 }

/-- `DrawBuffer::validate(const Point&)` from drawpool.h: if the stored
reference point differs from `p`, store `p` and invalidate; return
`isValid()` of the resulting buffer. -/
def DrawBuffer.validate (b : DrawBuffer) (p : Point) : DrawBuffer × Bool :=
  let b' := if b.m_ref ≠ p then ({ b with m_ref := p }).invalidate else b
  (b', b'.isValid)

/-- `DrawBuffer::createTemporaryBuffer` from drawpool.h: a default
(`agroup = true`) buffer whose `m_i` is set to the temporary sentinel -2. -/
def DrawBuffer.createTemporaryBuffer (order : DrawOrder) : DrawBuffer :=
  { DrawBuffer.mkBuffer order true with m_i := -2 }

/-- `DrawPool::DrawObject` from drawpool.h. -/
structure DrawObject where
  drawMode : DrawMode
  buffer : Option DrawBuffer
  state : Option PoolState
  method : Option DrawMethod
  methods : Option (List DrawMethod)
  action : Option Nat
deriving DecidableEq, Repr

/-- The three-argument `DrawObject` constructor
`DrawObject(drawMode, state, method)` from drawpool.h. -/
def DrawObject.ofMethod (dm : DrawMode) (st : PoolState) (m : DrawMethod) : DrawObject :=
  { drawMode := dm
    buffer := none
    state := some st
    method := some m
    methods := none
    action := none }

/-- `DrawObject::addMethod` from drawpool.h: on first promotion copy the
single stored method into a fresh list, force `drawMode` to `TRIANGLES`, and
append the new method.  The source dereferences `*this->method`
unconditionally; the embedding returns an empty seed list in the (undefined
behaviour) case where no single method is stored. -/
def DrawObject.addMethod (o : DrawObject) (m : DrawMethod) : DrawObject :=
  let seed : List DrawMethod :=
    match o.methods with
    | some l => l
    | none =>
      match o.method with
      | some m0 => [m0]
      | none => []
  { o with drawMode := DrawMode.TRIANGLES, methods := some (seed ++ [m]) }

/-- The client's maximum map floor constant `MAX_Z` (from the repository's
client constants header, outside src/); its concrete value does not affect
any proved property. -/
def MAX_Z : Nat := 15

/-- `DrawPool::ARR_MAX_Z = MAX_Z + 1` from drawpool.h. -/
def ARR_MAX_Z : Nat := MAX_Z + 1

inductive DrawPoolType where
  | MAP
  | CREATURE_INFORMATION
  | LIGHT
  | TEXT
  | FOREGROUND
  | UNKNOW
deriving DecidableEq, Repr

/-- The `DrawPool` class state from drawpool.h.  The fixed 2D array
`m_objects[ARR_MAX_Z][DrawOrder::LAST]` is modelled as a total function
from (floor, order) indices to bucket lists; `stdext::map` `m_objectsByhash`
is modelled as an insertion-ordered association list. -/
structure DrawPool where
  m_enabled : Bool
  m_alwaysGroupDrawings : Bool
  m_autoUpdate : Bool
  m_currentOrder : Nat
  m_currentFloor : Nat
  m_refreshTimeMS : Nat
  m_state : PoolState
  m_type : DrawPoolType
  m_status : Nat × Nat
  m_objects : Nat → Nat → List DrawObject
  m_objectsByhash : List ((PoolState × DrawMethod) × DrawObject)

/-- A `DrawPool` with the member initializers from drawpool.h
(`m_status{1, 0}`, empty buckets, default state). -/
def DrawPool.init : DrawPool :=
  { m_enabled := true
    m_alwaysGroupDrawings := false
    m_autoUpdate := false
    m_currentOrder := 0
    m_currentFloor := 0
    m_refreshTimeMS := 0
    m_state := PoolState.default
    m_type := DrawPoolType.UNKNOW
    m_status := (1, 0)
    m_objects := fun _ _ => []
    m_objectsByhash := [] }

/-- `DrawPool::repaint` from drawpool.h: `m_status.first = 1`. -/
def DrawPool.repaint (p : DrawPool) : DrawPool :=
  { p with m_status := (1, p.m_status.2) }

/-- `DrawPool::flush` from drawpool.h: clear `m_objectsByhash` and advance
`m_currentFloor` while it is below `ARR_MAX_Z - 1`. -/
def DrawPool.flush (p : DrawPool) : DrawPool :=
  { p with
      m_objectsByhash := []
      m_currentFloor :=
        if p.m_currentFloor < ARR_MAX_Z - 1 then p.m_currentFloor + 1
        else p.m_currentFloor }

/-- `DrawPool::resetOpacity` from drawpool.h. -/
def DrawPool.resetOpacity (p : DrawPool) : DrawPool :=
  { p with m_state := { p.m_state with opacity := 1 } }

/-- `DrawPool::resetClipRect` from drawpool.h (`m_state.clipRect = {}`). -/
def DrawPool.resetClipRect (p : DrawPool) : DrawPool :=
  { p with m_state := { p.m_state with clipRect := default } }

/-- `DrawPool::resetShaderProgram` from drawpool.h. -/
def DrawPool.resetShaderProgram (p : DrawPool) : DrawPool :=
  { p with m_state := { p.m_state with shaderProgram := none } }

/-- `DrawPool::resetCompositionMode` from drawpool.h. -/
def DrawPool.resetCompositionMode (p : DrawPool) : DrawPool :=
  { p with m_state := { p.m_state with compositionMode := CompositionMode.NORMAL } }

/-- `DrawPool::resetBlendEquation` from drawpool.h. -/
def DrawPool.resetBlendEquation (p : DrawPool) : DrawPool :=
  { p with m_state := { p.m_state with blendEquation := BlendEquation.ADD } }

/-- Modelled from the spec: `DrawPool::resetState` — its body lives in
drawpool.cpp, which is not under src/.  Per the spec it restores the current
PaintState's fields to defaults: color=white, opacity=1, clip=none,
shader=none, composition=Normal, blend=Add. -/
def DrawPool.resetState (p : DrawPool) : DrawPool :=
  { p with m_state :=
      { p.m_state with
          color := Color.white
          opacity := 1
          clipRect := default
          shaderProgram := none
          compositionMode := CompositionMode.NORMAL
          blendEquation := BlendEquation.ADD } }

/-- Modelled from the spec: `DrawPool::canRepaint(bool)` — its body lives in
drawpool.cpp, which is not under src/.  Per the spec it is true when the
generation counters disagree or the refresh timer elapsed (the timer is an
external input here), and with `autoUpdateStatus` set it brings the counters
into agreement as a side effect. -/
def DrawPool.canRepaint (p : DrawPool) (autoUpdateStatus : Bool)
    (refreshTimerElapsed : Bool) : DrawPool × Bool :=
  let can := decide (p.m_status.1 ≠ p.m_status.2) || refreshTimerElapsed
  if can && autoUpdateStatus then
    ({ p with m_status := (p.m_status.1, p.m_status.1) }, can)
  else
    (p, can)

/-- `DrawPool::getLastDrawObject` from drawpool.h indexes
`list[list.size() - 1]` of the current `[floor][order]` bucket; the total
embedding returns `none` where the source reads out of bounds. -/
def DrawPool.getLastDrawObject (p : DrawPool) : Option DrawObject :=
  let list := p.m_objects p.m_currentFloor p.m_currentOrder
  list.get? (list.length - 1)

/-- `DrawPool::getOpacity(lastDrawing)` from drawpool.h; the source
unconditionally dereferences the optional `state` of the last draw object,
which the total embedding maps to `none`. -/
def DrawPool.getOpacity (p : DrawPool) (lastDrawing : Bool) : Option Rat :=
  if !lastDrawing then some p.m_state.opacity
  else (p.getLastDrawObject.bind (fun o => o.state)).map (fun s => s.opacity)

/-- `DrawPool::getClipRect(lastDrawing)` from drawpool.h, embedded like
`getOpacity`. -/
def DrawPool.getClipRect (p : DrawPool) (lastDrawing : Bool) : Option Rect :=
  if !lastDrawing then some p.m_state.clipRect
  else (p.getLastDrawObject.bind (fun o => o.state)).map (fun s => s.clipRect)

/-- The per-call arguments of `DrawPool::add` (its declared signature in
drawpool.h): color, texture, geometry method and draw mode. -/
structure AddCall where
  color : Color
  texture : Option Nat
  method : DrawMethod
  drawMode : DrawMode
deriving DecidableEq, Repr

/-- Modelled from the spec: the PaintState snapshot taken by `DrawPool::add`
(drawpool.cpp is not under src/) — the pool's current state tagged with the
call's color and texture. -/
def DrawPool.stateFor (p : DrawPool) (c : Color) (t : Option Nat) : PoolState :=
  { p.m_state with color := c, texture := t }

/-- Modelled from the spec: `DrawPool::updateHash` (drawpool.cpp is not
under src/) computes a state hash over the active PaintState excluding the
closure.  The spec assumes hash equality implies content equality, so the
hash is modelled as the hashed content itself: the state with its closure
erased. -/
def stateHashKey (s : PoolState) : PoolState := { s with action := none }

/-- Modelled from the spec: the combined state-and-method hash used to key
the pool's within-frame hash index. -/
def combinedHash (s : PoolState) (m : DrawMethod) : PoolState × DrawMethod :=
  (stateHashKey s, m)

/-- First-match lookup in the association list modelling
`stdext::map m_objectsByhash`. -/
def hashFind (l : List ((PoolState × DrawMethod) × DrawObject))
    (h : PoolState × DrawMethod) : Option DrawObject :=
  match l with
  | [] => none
  | e :: rest => if e.1 = h then some e.2 else hashFind rest h

/-- The current `[floor][order]` bucket of the pool. -/
def DrawPool.currentBucket (p : DrawPool) : List DrawObject :=
  p.m_objects p.m_currentFloor p.m_currentOrder

/-- Replace the current `[floor][order]` bucket of the pool. -/
def DrawPool.setCurrentBucket (p : DrawPool) (l : List DrawObject) : DrawPool :=
  { p with m_objects := fun f o =>
      if f = p.m_currentFloor ∧ o = p.m_currentOrder then l else p.m_objects f o }

/-- Modelled from the spec: a new method is batchable onto the preceding
DrawCall when both use the `TRIANGLES` draw mode. -/
def batchable (dm1 dm2 : DrawMode) : Bool :=
  decide (dm1 = DrawMode.TRIANGLES) && decide (dm2 = DrawMode.TRIANGLES)

/-- Modelled from the spec: `DrawPool::add` — its body (drawpool.cpp) is not
under src/; only its declaration is in drawpool.h.  Steps follow §4.3 of the
spec: (1) compute the combined state-and-method hash; (2) if an
agroup-enabled DrawBuffer is supplied, its validation succeeds and the
combined hash is in the pool's hash index, the call is a no-op (dedup fast
path); (3) else if the preceding DrawCall of the active bucket has an equal
PaintState and the geometry is batchable, append the method to it; (4) else
open a new DrawCall, registering it in the hash index; (5) if a DrawBuffer
was supplied, append the combined hash to its history and mark it validated
against the caller's reference point.  The supplied buffer is shared mutable
state in the source, so its updated value is returned alongside the pool. -/
def DrawPool.add (p : DrawPool) (c : AddCall) (drawBuffer : Option DrawBuffer)
    (refPoint : Point) : DrawPool × Option DrawBuffer :=
  let state := p.stateFor c.color c.texture
  let h := combinedHash state c.method
  let fast :=
    match drawBuffer with
    | some b => b.m_agroup && (b.validate refPoint).2 && (hashFind p.m_objectsByhash h).isSome
    | none => false
  if fast then
    (p, drawBuffer.map (fun b => (b.validate refPoint).1))
  else
    let bucket := p.currentBucket
    let extend :=
      match bucket.getLast? with
      | some o =>
        (match o.state with
         | some st => PoolState.eqState st state
         | none => false) && batchable o.drawMode c.drawMode
      | none => false
    let newObj :=
      if extend then
        (match bucket.getLast? with
         | some o => o
         | none => DrawObject.ofMethod c.drawMode state c.method).addMethod c.method
      else DrawObject.ofMethod c.drawMode state c.method
    let bucket2 := if extend then bucket.dropLast ++ [newObj] else bucket ++ [newObj]
    let p2 := p.setCurrentBucket bucket2
    let p3 := { p2 with m_objectsByhash := p2.m_objectsByhash ++ [(h, newObj)] }
    let b2 := drawBuffer.map (fun b =>
      let bv := (b.validate refPoint).1
      { bv with m_i := 0, m_hashs := bv.m_hashs ++ [h] })
    (p3, b2)

/-- Run a sequence of `add` calls against one pool, threading a single
shared DrawBuffer and a fixed reference point — one frame's worth of
identical-content submissions. -/
def DrawPool.runAdds (p : DrawPool) (b : DrawBuffer) (calls : List AddCall)
    (refPoint : Point) : DrawPool × DrawBuffer :=
  match calls with
  | [] => (p, b)
  | c :: rest =>
    let r := p.add c (some b) refPoint
    DrawPool.runAdds r.1 (r.2.getD b) rest refPoint

/-- A sample geometry method used by concrete witnesses. -/
def sampleMethod : DrawMethod :=
  { type := DrawMethodType.RECT
    rects := some (⟨0, 0, 31, 31⟩, ⟨10, 10, 41, 41⟩)
    points := none
    dest := none
    intValue := 0 }

/-- The default-constructed `Point` is the origin. -/
theorem point_default_eq : (default : Point) = ⟨0, 0⟩ := rfl

/-- `l.get? (l.length - 1)` is exactly `l.getLast?`. -/
theorem get?_pred_length_eq_getLast? {α : Type} :
    ∀ l : List α, l.get? (l.length - 1) = l.getLast?
  | [] => rfl
  | [_] => rfl
  | a :: b :: t => by
    have ih := get?_pred_length_eq_getLast? (b :: t)
    have h1 : (a :: b :: t).length - 1 = ((b :: t).length - 1) + 1 := by
      simp
    rw [h1, List.get?_cons_succ, ih, List.getLast?_cons_cons]

/-- Claim C2: for every DrawBuffer and point, `validate` stores a differing
point as the new reference, invalidates the buffer and returns false; with
an unchanged point it leaves the buffer untouched and returns `isValid()`. -/
theorem claim_C2_validate (b : DrawBuffer) (p : Point) :
    DrawBuffer.validate b p =
      if p = b.m_ref then (b, b.isValid)
      else ({ b with m_ref := p, m_i := -1 }, false) := by
  by_cases h : b.m_ref = p
  · subst h
    simp [DrawBuffer.validate]
  · simp [DrawBuffer.validate, DrawBuffer.invalidate, DrawBuffer.isValid, h, Ne.symm h]

/-- Claim C3: a DrawObject holding the single method M1, extended via
`addMethod` with M2, becomes one DrawObject whose method list is exactly
`[M1, M2]` in submission order (and its draw mode collapses to TRIANGLES). -/
theorem claim_C3_batching_order (o : DrawObject) (m1 m2 : DrawMethod)
    (h1 : o.methods = none) (h2 : o.method = some m1) :
    (o.addMethod m2).methods = some [m1, m2] ∧
    (o.addMethod m2).drawMode = DrawMode.TRIANGLES := by
  simp [DrawObject.addMethod, h1, h2]

/-- Witness for C3 at a concrete DrawObject built by the three-argument
constructor. -/
theorem claim_C3_witness :
    ((DrawObject.ofMethod DrawMode.TRIANGLES PoolState.default sampleMethod).addMethod
        sampleMethod).methods = some [sampleMethod, sampleMethod] :=
  (claim_C3_batching_order
    (DrawObject.ofMethod DrawMode.TRIANGLES PoolState.default sampleMethod)
    sampleMethod sampleMethod rfl rfl).1

/-- Claim C4: two PoolStates compare equal exactly when their transform
matrix, color, opacity, composition mode, blend equation, clip rect,
texture and shader program all agree; the `action` closure never influences
the comparison, even for states differing only in their closures. -/
theorem claim_C4_state_equality (s1 s2 : PoolState) :
    (PoolState.eqState s1 s2 = true ↔
      (s1.transformMatrix = s2.transformMatrix ∧ s1.color = s2.color ∧
       s1.opacity = s2.opacity ∧ s1.compositionMode = s2.compositionMode ∧
       s1.blendEquation = s2.blendEquation ∧ s1.clipRect = s2.clipRect ∧
       s1.texture = s2.texture ∧ s1.shaderProgram = s2.shaderProgram)) ∧
    (∀ a1 a2 : Option Nat,
      PoolState.eqState { s1 with action := a1 } { s1 with action := a2 } = true) := by
  constructor
  · simp [PoolState.eqState, and_assoc]
  · intro a1 a2
    simp [PoolState.eqState]

/-- Claim C5: `flush` empties the within-frame hash index and advances the
floor cursor by one, saturating at `MAX_Z`; the cursor never reaches
`MAX_Z + 1`. -/
theorem claim_C5_flush (p : DrawPool) (h : p.m_currentFloor ≤ MAX_Z) :
    (p.flush).m_objectsByhash = [] ∧
    (p.flush).m_currentFloor = min (p.m_currentFloor + 1) MAX_Z ∧
    (p.flush).m_currentFloor < MAX_Z + 1 := by
  refine ⟨rfl, ?_, ?_⟩ <;>
    · simp only [DrawPool.flush, ARR_MAX_Z, Nat.add_sub_cancel]
      split <;> omega

/-- Witness for C5 at the freshly initialized pool. -/
theorem claim_C5_witness :
    DrawPool.init.m_currentFloor ≤ MAX_Z ∧
    (DrawPool.init.flush).m_objectsByhash = [] ∧
    (DrawPool.init.flush).m_currentFloor = min (DrawPool.init.m_currentFloor + 1) MAX_Z ∧
    (DrawPool.init.flush).m_currentFloor < MAX_Z + 1 :=
  ⟨by decide, claim_C5_flush DrawPool.init (by decide)⟩

/-- Claim C6: any run of consecutive `repaint()` calls leaves the status
counters exactly as a single call does, and a single `canRepaint(true)`
check after repainting resyncs the generation counters to equal — N repaint
requests coalesce into one rebuild acknowledgment. -/
theorem claim_C6_repaint_coalescing (p : DrawPool) (n : Nat) (t : Bool) :
    DrawPool.repaint^[n + 1] p = p.repaint ∧
    ((p.repaint.canRepaint true t).1.m_status.1 =
      (p.repaint.canRepaint true t).1.m_status.2) := by
  constructor
  · induction n with
    | zero => rfl
    | succ k ih =>
      rw [Function.iterate_succ_apply', ih]
      simp [DrawPool.repaint]
  · simp only [DrawPool.canRepaint, DrawPool.repaint]
    split <;> simp_all

/-- Claim C7 (counterexample to the original claim): a temporary buffer,
`validate`d against a point different from its stored reference, loses
`isTemporary()` and lands in the plain invalid state `m_i = -1`. -/
theorem claim_C7_counterexample :
    (((DrawBuffer.createTemporaryBuffer DrawOrder.FIRST).validate ⟨1, 0⟩).1.isTemporary
        = false) ∧
    (((DrawBuffer.createTemporaryBuffer DrawOrder.FIRST).validate ⟨1, 0⟩).1.m_i = -1) := by
  decide

/-- Claim C7 (amended): a freshly created temporary buffer carries the
sentinel `m_i = -2`, distinct from the plain invalid sentinel `-1`, so
`isTemporary()` holds while `isValid()` does not, and `validate` against the
unchanged stored reference preserves the buffer and its temporary identity;
however `invalidate()` — or `validate` against a changed reference point —
resets the sentinel to `-1`, after which the buffer is in the plain invalid
state and no longer temporary. -/
theorem claim_C7_temporary_sentinel (order : DrawOrder) :
    (DrawBuffer.createTemporaryBuffer order).m_i = -2 ∧
    (DrawBuffer.createTemporaryBuffer order).isTemporary = true ∧
    (DrawBuffer.createTemporaryBuffer order).isValid = false ∧
    ((DrawBuffer.createTemporaryBuffer order).validate
        (DrawBuffer.createTemporaryBuffer order).m_ref).1 =
      DrawBuffer.createTemporaryBuffer order ∧
    (DrawBuffer.createTemporaryBuffer order).invalidate.m_i = -1 ∧
    (DrawBuffer.createTemporaryBuffer order).invalidate.isTemporary = false ∧
    ((DrawBuffer.createTemporaryBuffer order).validate ⟨1, 0⟩).1.m_i = -1 ∧
    ((DrawBuffer.createTemporaryBuffer order).validate ⟨1, 0⟩).1.isTemporary = false := by
  refine ⟨rfl, rfl, rfl, ?_, rfl, rfl, ?_, ?_⟩ <;>
    simp [DrawBuffer.createTemporaryBuffer, DrawBuffer.mkBuffer, DrawBuffer.validate,
      DrawBuffer.invalidate, DrawBuffer.isTemporary, point_default_eq]

/-- Claim C8: `resetState()` (modelled from the spec) and the individual
reset operations (from the source header) restore the current PaintState
fields to their defaults: color white, opacity 1, clip rect none (the
default-invalid rect), shader none, composition Normal, blend Add. -/
theorem claim_C8_reset_defaults (p : DrawPool) :
    ((p.resetState).m_state.color = Color.white ∧
     (p.resetState).m_state.opacity = 1 ∧
     (p.resetState).m_state.clipRect = Rect.mk 0 0 (-1) (-1) ∧
     (p.resetState).m_state.shaderProgram = none ∧
     (p.resetState).m_state.compositionMode = CompositionMode.NORMAL ∧
     (p.resetState).m_state.blendEquation = BlendEquation.ADD) ∧
    ((p.resetOpacity).m_state.opacity = 1 ∧
     (p.resetClipRect).m_state.clipRect = Rect.mk 0 0 (-1) (-1) ∧
     (p.resetShaderProgram).m_state.shaderProgram = none ∧
     (p.resetCompositionMode).m_state.compositionMode = CompositionMode.NORMAL ∧
     (p.resetBlendEquation).m_state.blendEquation = BlendEquation.ADD) := by
  refine ⟨⟨rfl, rfl, rfl, rfl, rfl, rfl⟩, rfl, rfl, rfl, rfl, rfl⟩

/-- Claim C9: `validate` on a buffer produced by `createTemporaryBuffer`
returns false for every point — the sentinel -2 is not greater than -1 when
the point matches, and a differing point invalidates first. -/
theorem claim_C9_temporary_validate_false (order : DrawOrder) (p : Point) :
    ((DrawBuffer.createTemporaryBuffer order).validate p).2 = false := by
  simp only [DrawBuffer.createTemporaryBuffer, DrawBuffer.mkBuffer, DrawBuffer.validate,
    DrawBuffer.invalidate, DrawBuffer.isValid]
  split <;> simp

/-- Claim C10: in the total embedding, `getOpacity(true)` and
`getClipRect(true)` produce a value exactly when the current
`[floor][order]` bucket is non-empty and its last DrawObject carries a
state; otherwise the source's `list[list.size() - 1]` read and unguarded
optional dereference have no value to yield. -/
theorem claim_C10_last_object_safety (p : DrawPool) :
    ((p.getOpacity true).isSome = true ∧ (p.getClipRect true).isSome = true) ↔
      (p.m_objects p.m_currentFloor p.m_currentOrder ≠ [] ∧
       ∃ o : DrawObject,
         (p.m_objects p.m_currentFloor p.m_currentOrder).getLast? = some o ∧
         o.state.isSome = true) := by
  have hlast : p.getLastDrawObject =
      (p.m_objects p.m_currentFloor p.m_currentOrder).getLast? :=
    get?_pred_length_eq_getLast? _
  simp only [DrawPool.getOpacity, DrawPool.getClipRect, Bool.not_true, if_neg, hlast]
  cases hL : (p.m_objects p.m_currentFloor p.m_currentOrder).getLast? with
  | none =>
    have hnil : p.m_objects p.m_currentFloor p.m_currentOrder = [] := by
      cases hE : p.m_objects p.m_currentFloor p.m_currentOrder with
      | nil => rfl
      | cons a t =>
        rw [hE] at hL
        simp [List.getLast?_eq_getLast_of_ne_nil] at hL
    simp [hL, hnil]
  | some o =>
    have hne : p.m_objects p.m_currentFloor p.m_currentOrder ≠ [] := by
      intro hE
      rw [hE] at hL
      simp at hL
    cases hS : o.state <;> simp [hL, hS, hne]

/-- A hash found in a prefix is still found after appending entries. -/
theorem hashFind_append_isSome (l1 l2 : List ((PoolState × DrawMethod) × DrawObject))
    (h : PoolState × DrawMethod) (hs : (hashFind l1 h).isSome = true) :
    (hashFind (l1 ++ l2) h).isSome = true := by
  induction l1 with
  | nil => simp [hashFind] at hs
  | cons e rest ih =>
    by_cases he : e.1 = h
    · simp [hashFind, he]
    · simp only [List.cons_append, hashFind, if_neg he] at hs ⊢
      exact ih hs

/-- Appending an entry for a key makes lookups of that key succeed. -/
theorem hashFind_append_self (l : List ((PoolState × DrawMethod) × DrawObject))
    (h : PoolState × DrawMethod) (o : DrawObject) :
    (hashFind (l ++ [(h, o)]) h).isSome = true := by
  induction l with
  | nil => simp [hashFind]
  | cons e rest ih =>
    by_cases he : e.1 = h <;> simp [hashFind, he, ih]

/-- `validate` against the stored reference point leaves the buffer alone. -/
theorem validate_same_ref (b : DrawBuffer) (r : Point) (href : b.m_ref = r) :
    b.validate r = (b, b.isValid) := by
  simp [DrawBuffer.validate, href]

/-- After `validate p`, the stored reference point is `p`. -/
theorem validate_fst_ref (b : DrawBuffer) (r : Point) : (b.validate r).1.m_ref = r := by
  by_cases h : b.m_ref = r <;>
    simp [DrawBuffer.validate, DrawBuffer.invalidate, h]

/-- `validate` never changes the `agroup` flag. -/
theorem validate_fst_agroup (b : DrawBuffer) (r : Point) :
    (b.validate r).1.m_agroup = b.m_agroup := by
  by_cases h : b.m_ref = r <;>
    simp [DrawBuffer.validate, DrawBuffer.invalidate, h]

/-- `validate` never changes the hash history. -/
theorem validate_fst_hashs (b : DrawBuffer) (r : Point) :
    (b.validate r).1.m_hashs = b.m_hashs := by
  by_cases h : b.m_ref = r <;>
    simp [DrawBuffer.validate, DrawBuffer.invalidate, h]

/-- `add` never changes the pool's pending PaintState. -/
theorem add_m_state (p : DrawPool) (c : AddCall) (ob : Option DrawBuffer) (r : Point) :
    (p.add c ob r).1.m_state = p.m_state := by
  cases ob <;>
    · simp only [DrawPool.add]
      split <;> simp [DrawPool.setCurrentBucket]

/-- A hash present in the pool's index is still present after any `add`. -/
theorem add_hash_mono (p : DrawPool) (c : AddCall) (ob : Option DrawBuffer) (r : Point)
    (h : PoolState × DrawMethod) (hs : (hashFind p.m_objectsByhash h).isSome = true) :
    (hashFind (p.add c ob r).1.m_objectsByhash h).isSome = true := by
  cases ob <;>
    · simp only [DrawPool.add]
      split
      · exact hs
      · simpa [DrawPool.setCurrentBucket] using
          hashFind_append_isSome p.m_objectsByhash _ h hs

/-- After an `add`, the call's own combined hash is present in the index. -/
theorem add_hash_self (p : DrawPool) (c : AddCall) (b : DrawBuffer) (r : Point) :
    (hashFind (p.add c (some b) r).1.m_objectsByhash
      (combinedHash (p.stateFor c.color c.texture) c.method)).isSome = true := by
  simp only [DrawPool.add]
  split
  · next hfast =>
    simp only [Bool.and_eq_true] at hfast
    exact hfast.2
  · simpa [DrawPool.setCurrentBucket] using
      hashFind_append_self p.m_objectsByhash _ _

/-- After an `add` that supplies a buffer, the returned buffer keeps its
`agroup` flag, is validated against the reference point, and is valid. -/
theorem add_buffer_good (p : DrawPool) (c : AddCall) (b : DrawBuffer) (r : Point) :
    ∃ b', (p.add c (some b) r).2 = some b' ∧
      b'.m_agroup = b.m_agroup ∧ b'.m_ref = r ∧ b'.m_i > -1 := by
  simp only [DrawPool.add]
  split
  · next hfast =>
    refine ⟨(b.validate r).1, by simp, validate_fst_agroup b r, validate_fst_ref b r, ?_⟩
    simp only [Bool.and_eq_true] at hfast
    have h2 : (b.validate r).2 = true := hfast.1.2
    have h3 : (b.validate r).1.isValid = true := h2
    simpa [DrawBuffer.isValid] using h3
  · refine ⟨({ (b.validate r).1 with
        m_i := 0
        m_hashs := (b.validate r).1.m_hashs ++
          [combinedHash (p.stateFor c.color c.texture) c.method] }),
      by simp, ?_, ?_, ?_⟩
    · simpa using validate_fst_agroup b r
    · simpa using validate_fst_ref b r
    · simp

/-- Dedup fast path of the modelled `add`: with an agroup-enabled buffer
that validates successfully against the unchanged reference point and a
combined hash already in the pool's index, the call is a no-op on both the
pool and the buffer. -/
theorem add_fastPath (p : DrawPool) (c : AddCall) (b : DrawBuffer) (r : Point)
    (hag : b.m_agroup = true) (href : b.m_ref = r) (hval : b.m_i > -1)
    (hmem : (hashFind p.m_objectsByhash
      (combinedHash (p.stateFor c.color c.texture) c.method)).isSome = true) :
    p.add c (some b) r = (p, some b) := by
  have hv : b.validate r = (b, true) := by
    rw [validate_same_ref b r href]
    simp [DrawBuffer.isValid, hval]
  simp [DrawPool.add, hv, hag, hmem]

/-- Pools with equal pending state produce equal snapshots. -/
theorem stateFor_eq_of_m_state {p q : DrawPool} (h : p.m_state = q.m_state)
    (c : Color) (t : Option Nat) : p.stateFor c t = q.stateFor c t := by
  simp [DrawPool.stateFor, h]

/-- `runAdds` never changes the pool's pending PaintState. -/
theorem runAdds_m_state (calls : List AddCall) (p : DrawPool) (b : DrawBuffer) (r : Point) :
    (p.runAdds b calls r).1.m_state = p.m_state := by
  induction calls generalizing p b with
  | nil => rfl
  | cons c rest ih =>
    rw [DrawPool.runAdds]
    rw [ih, add_m_state]

/-- A hash present before a `runAdds` run is still present after it. -/
theorem runAdds_hash_mono (calls : List AddCall) (p : DrawPool) (b : DrawBuffer)
    (r : Point) (h : PoolState × DrawMethod)
    (hs : (hashFind p.m_objectsByhash h).isSome = true) :
    (hashFind (p.runAdds b calls r).1.m_objectsByhash h).isSome = true := by
  induction calls generalizing p b with
  | nil => exact hs
  | cons c rest ih =>
    rw [DrawPool.runAdds]
    exact ih _ _ (add_hash_mono p c (some b) r h hs)

/-- After a frame of `add` calls, every call's combined hash is present in
the pool's hash index. -/
theorem runAdds_hash_all (calls : List AddCall) (p : DrawPool) (b : DrawBuffer)
    (r : Point) :
    ∀ c ∈ calls, (hashFind (p.runAdds b calls r).1.m_objectsByhash
      (combinedHash (p.stateFor c.color c.texture) c.method)).isSome = true := by
  induction calls generalizing p b with
  | nil =>
    intro c hc
    simp at hc
  | cons c0 rest ih =>
    intro c hc
    rw [DrawPool.runAdds]
    rcases List.mem_cons.mp hc with hceq | hcmem
    · subst hceq
      exact runAdds_hash_mono rest _ _ r _ (add_hash_self p c b r)
    · have h2 : (p.add c0 (some b) r).1.m_state = p.m_state := add_m_state p c0 (some b) r
      have h3 := ih (p.add c0 (some b) r).1 (((p.add c0 (some b) r).2).getD b) c hcmem
      rwa [stateFor_eq_of_m_state h2] at h3

/-- After a non-empty frame of `add` calls, the returned buffer keeps its
`agroup` flag and is valid against the frame's reference point. -/
theorem runAdds_buffer_good (c : AddCall) (calls : List AddCall) (p : DrawPool)
    (b : DrawBuffer) (r : Point) :
    (p.runAdds b (c :: calls) r).2.m_agroup = b.m_agroup ∧
    (p.runAdds b (c :: calls) r).2.m_ref = r ∧
    (p.runAdds b (c :: calls) r).2.m_i > -1 := by
  induction calls generalizing c p b with
  | nil =>
    obtain ⟨b', hb', hag, href, hval⟩ := add_buffer_good p c b r
    rw [DrawPool.runAdds]
    simp only [hb', Option.getD_some]
    exact ⟨hag, href, hval⟩
  | cons c2 rest ih =>
    obtain ⟨b', hb', hag, href, hval⟩ := add_buffer_good p c b r
    rw [DrawPool.runAdds]
    simp only [hb', Option.getD_some]
    obtain ⟨ha2, hr2, hv2⟩ := ih c2 (p.add c (some b) r).1 b'
    exact ⟨ha2.trans hag, hr2, hv2⟩

/-- A frame of `add` calls whose hashes are all in the index, replayed with
a valid agroup-enabled buffer against the unchanged reference point, leaves
pool and buffer exactly fixed. -/
theorem runAdds_fixed (calls : List AddCall) (p : DrawPool) (b : DrawBuffer) (r : Point)
    (hag : b.m_agroup = true) (href : b.m_ref = r) (hval : b.m_i > -1)
    (hmem : ∀ c ∈ calls, (hashFind p.m_objectsByhash
      (combinedHash (p.stateFor c.color c.texture) c.method)).isSome = true) :
    p.runAdds b calls r = (p, b) := by
  revert hmem
  induction calls with
  | nil =>
    intro _
    rfl
  | cons c rest ih =>
    intro hmem
    have hfp := add_fastPath p c b r hag href hval (hmem c (List.mem_cons_self c rest))
    rw [DrawPool.runAdds]
    simp only [hfp, Option.getD_some]
    exact ih (fun c' hc' => hmem c' (List.mem_cons_of_mem c hc'))

/-- Claim C1: replaying the exact same sequence of `add` calls with an
unchanged reference point on a second consecutive frame, each call carrying
a non-temporary agroup-enabled DrawBuffer, is a complete no-op: every call
hits the dedup fast path (buffer validation succeeds and the combined
state-and-method hash is already in the pool's hash index), so zero new
DrawCalls are created. -/
theorem claim_C1_idempotent_replay (p0 : DrawPool) (b0 : DrawBuffer)
    (calls : List AddCall) (ref : Point)
    (hag : b0.m_agroup = true) (_hnt : b0.isTemporary = false) :
    DrawPool.runAdds (p0.runAdds b0 calls ref).1 (p0.runAdds b0 calls ref).2 calls ref =
      p0.runAdds b0 calls ref := by
  cases calls with
  | nil => rfl
  | cons c rest =>
    obtain ⟨hag1, href1, hval1⟩ := runAdds_buffer_good c rest p0 b0 ref
    have hmem : ∀ c' ∈ c :: rest,
        (hashFind (p0.runAdds b0 (c :: rest) ref).1.m_objectsByhash
          (combinedHash ((p0.runAdds b0 (c :: rest) ref).1.stateFor c'.color c'.texture)
            c'.method)).isSome = true := by
      intro c' hc'
      have h1 := runAdds_hash_all (c :: rest) p0 b0 ref c' hc'
      have h2 : (p0.runAdds b0 (c :: rest) ref).1.m_state = p0.m_state :=
        runAdds_m_state (c :: rest) p0 b0 ref
      rwa [stateFor_eq_of_m_state h2]
    exact runAdds_fixed (c :: rest) (p0.runAdds b0 (c :: rest) ref).1
      (p0.runAdds b0 (c :: rest) ref).2 ref (hag1.trans hag) href1 hval1 hmem

/-- The concrete call sequence used by the C1 witness. -/
def sampleCalls : List AddCall :=
  [{ color := Color.white, texture := none, method := sampleMethod,
     drawMode := DrawMode.TRIANGLES }]

/-- Witness for C1: a concrete one-call frame replayed on a fresh pool with
a fresh non-temporary agroup-enabled buffer. -/
theorem claim_C1_witness :
    (DrawBuffer.mkBuffer DrawOrder.FIRST true).m_agroup = true ∧
    (DrawBuffer.mkBuffer DrawOrder.FIRST true).isTemporary = false ∧
    DrawPool.runAdds
        (DrawPool.init.runAdds (DrawBuffer.mkBuffer DrawOrder.FIRST true) sampleCalls ⟨0, 0⟩).1
        (DrawPool.init.runAdds (DrawBuffer.mkBuffer DrawOrder.FIRST true) sampleCalls ⟨0, 0⟩).2
        sampleCalls ⟨0, 0⟩ =
      DrawPool.init.runAdds (DrawBuffer.mkBuffer DrawOrder.FIRST true) sampleCalls ⟨0, 0⟩ :=
  ⟨rfl, by decide,
    claim_C1_idempotent_replay DrawPool.init (DrawBuffer.mkBuffer DrawOrder.FIRST true)
      sampleCalls ⟨0, 0⟩ rfl (by decide)⟩
